import Mathlib

/-!
Verification of the Bayesian product-comparison core of `OnlyBest.py`.

The script reads, for each of two products, a price and review counts
(5-star, 4-star, total), validates that 5-star + 4-star does not exceed the
total, forms the Beta posterior parameters `a = 1 + successes`,
`b = 1 + failures`, draws `N = 100_000` Monte Carlo samples per product,
divides by price to get "value" arrays, and reports win probabilities, a tie
probability, means, and 95% percentile intervals.

We embed the computation over `ℚ`. The random draws `np.random.beta(a, b, N)`
are modelled by an explicit `sampler : ℕ → ℕ → ℕ → List ℚ` argument
(alpha, beta, count); every theorem quantifies over the drawn arrays, so the
results hold for every outcome of the sampling.
-/

namespace OnlyBest

/-- The four numeric form inputs of one product (source lines 50-60). -/
structure ProductInput where
  price : ℚ
  five : ℕ
  four : ℕ
  total : ℕ
deriving DecidableEq, Repr

/-- Error taxonomy. The script itself only ever reports the review-count
error (line 68); `invalidPrice` and `invalidSampleCount` are the further
error kinds named by the specification's taxonomy and are included so that
statements about them can be made. -/
inductive ValidationError where
  | invalidReviewCounts
  | invalidPrice
  | invalidSampleCount
deriving DecidableEq, Repr

/-- `successes = five + four` (source lines 64-65). -/
def successes (P : ProductInput) : ℕ := P.five + P.four

/-- `failures = total - successes` (source lines 71-72). -/
def failures (P : ProductInput) : ℕ := P.total - successes P

/-- The hard-coded Monte Carlo sample count `N = 100_000` (source line 78). -/
def N : ℕ := 100000

/-- `np.mean` of a list of rationals: sum divided by length. -/
def npMean (xs : List ℚ) : ℚ := xs.sum / (xs.length : ℚ)

/-- `np.percentile(xs, q)` with the default linear interpolation: sort the
data, take rank `q/100 * (n-1)`, and interpolate between the two adjacent
order statistics. -/
def npPercentile (xs : List ℚ) (q : ℚ) : ℚ :=
  let s := xs.mergeSort (fun a b => decide (a ≤ b))
  let n := s.length
  let rank : ℚ := q / 100 * ((n : ℚ) - 1)
  let i : ℕ := Int.toNat ⌊rank⌋
  let lo := s.getD i 0
  let hi := s.getD (i + 1) lo
  lo + (rank - (i : ℚ)) * (hi - lo)

/-- The value array `p / price` (source lines 88-89). -/
def values (p : List ℚ) (price : ℚ) : List ℚ := p.map (fun x => x / price)

/-- The number of indices at which the first array strictly exceeds the
second, i.e. the sum of the boolean array `xs > ys` (source lines 92-93). -/
def countGt (xs ys : List ℚ) : ℕ :=
  (xs.zip ys).countP (fun q => decide (q.2 < q.1))

/-- Everything the script derives and displays from the two sample arrays:
posterior parameters, win/tie probabilities, means, and percentile bounds
(source lines 64-75 and 88-133). -/
structure ComparisonResult where
  alpha1 : ℕ
  beta1 : ℕ
  alpha2 : ℕ
  beta2 : ℕ
  probFirstBetter : ℚ
  probSecondBetter : ℚ
  probTie : ℚ
  meanQuality1 : ℚ
  meanQuality2 : ℚ
  meanValue1 : ℚ
  meanValue2 : ℚ
  valueLow1 : ℚ
  valueHigh1 : ℚ
  valueLow2 : ℚ
  valueHigh2 : ℚ
deriving DecidableEq, Repr

/-- The deterministic part of the button handler, given the two drawn sample
arrays `p1`, `p2` (both of length `N` in the script; the divisions by
`p1.length` embed the divisions by `N` in `np.mean`):
`value = p / price`, `prob1_better = np.mean(value1 > value2)`,
`prob2_better = np.mean(value2 > value1)`,
`prob_tie = 1 - prob1_better - prob2_better`, plus the summary table entries
(source lines 64-75 and 88-133). -/
def computeStats (P1 P2 : ProductInput) (p1 p2 : List ℚ) : ComparisonResult :=
  let value1 := values p1 P1.price
  let value2 := values p2 P2.price
  let prob1 := (countGt value1 value2 : ℚ) / (p1.length : ℚ)
  let prob2 := (countGt value2 value1 : ℚ) / (p1.length : ℚ)
  { alpha1 := 1 + successes P1
    beta1 := 1 + failures P1
    alpha2 := 1 + successes P2
    beta2 := 1 + failures P2
    probFirstBetter := prob1
    probSecondBetter := prob2
    probTie := 1 - prob1 - prob2
    meanQuality1 := npMean p1
    meanQuality2 := npMean p2
    meanValue1 := npMean value1
    meanValue2 := npMean value2
    valueLow1 := npPercentile value1 (5 / 2)
    valueHigh1 := npPercentile value1 (195 / 2)
    valueLow2 := npPercentile value2 (5 / 2)
    valueHigh2 := npPercentile value2 (195 / 2) }

/-- The button handler (source lines 63-133): validate the review counts,
then draw `N` samples per product from `Beta(1 + successes, 1 + failures)`
— modelled by `sampler` — and compute the statistics. The only validation
the script performs is `successes > total` for either product. -/
def runComparison (P1 P2 : ProductInput) (sampler : ℕ → ℕ → ℕ → List ℚ) :
    Except ValidationError ComparisonResult :=
  if P1.total < successes P1 ∨ P2.total < successes P2 then
    Except.error ValidationError.invalidReviewCounts
  else
    Except.ok (computeStats P1 P2
      (sampler (1 + successes P1) (1 + failures P1) N)
      (sampler (1 + successes P2) (1 + failures P2) N))

/-- `st.number_input` never yields a value below its `min_value`; the price
widgets use `min_value = 0.01` and the total-review widgets `min_value = 1`
(source lines 50-60). -/
def numberInputValue (minVal x : ℚ) : ℚ := max minVal x

/-- Following the specification's wording: the fraction of indices
`0 ≤ i < n` satisfying a predicate. -/
def fracOfIndices (n : ℕ) (pred : ℕ → Bool) : ℚ :=
  ((List.range n).countP pred : ℚ) / (n : ℚ)

theorem computeStats_probFirstBetter (P1 P2 : ProductInput) (p1 p2 : List ℚ) :
    (computeStats P1 P2 p1 p2).probFirstBetter
      = (countGt (values p1 P1.price) (values p2 P2.price) : ℚ) / (p1.length : ℚ) := rfl

theorem computeStats_probSecondBetter (P1 P2 : ProductInput) (p1 p2 : List ℚ) :
    (computeStats P1 P2 p1 p2).probSecondBetter
      = (countGt (values p2 P2.price) (values p1 P1.price) : ℚ) / (p1.length : ℚ) := rfl

theorem computeStats_probTie (P1 P2 : ProductInput) (p1 p2 : List ℚ) :
    (computeStats P1 P2 p1 p2).probTie
      = 1 - (computeStats P1 P2 p1 p2).probFirstBetter
          - (computeStats P1 P2 p1 p2).probSecondBetter := rfl

theorem values_getD (p : List ℚ) (price : ℚ) (i : ℕ) :
    (values p price).getD i 0 = p.getD i 0 / price := by
  have h := @List.getD_map ℚ ℚ p (0 : ℚ) i (fun x => x / price)
  rw [zero_div] at h
  exact h

theorem values_length (p : List ℚ) (price : ℚ) :
    (values p price).length = p.length := List.length_map p _

theorem countP_zip_values (p1 p2 : List ℚ) (c d : ℚ) (f : ℚ × ℚ → Bool) :
    ((values p1 c).zip (values p2 d)).countP f
      = (p1.zip p2).countP (fun q => f (q.1 / c, q.2 / d)) := by
  unfold values
  rw [List.zip_map, List.countP_map]
  rfl

theorem countGt_values (p1 p2 : List ℚ) (c d : ℚ) :
    countGt (values p1 c) (values p2 d)
      = (p1.zip p2).countP (fun q => decide (q.2 / d < q.1 / c)) := by
  unfold countGt
  rw [countP_zip_values]

theorem countGt_swap (xs ys : List ℚ) :
    countGt ys xs = (xs.zip ys).countP (fun q => decide (q.1 < q.2)) := by
  unfold countGt
  rw [← List.zip_swap xs ys, List.countP_map]
  rfl

theorem countP_zip_range (f : ℚ × ℚ → Bool) :
    ∀ xs ys : List ℚ, xs.length = ys.length →
      (xs.zip ys).countP f
        = (List.range xs.length).countP (fun i => f (xs.getD i 0, ys.getD i 0))
  | [], [], _ => by simp
  | [], y :: ys, h => by simp at h
  | x :: xs, [], h => by simp at h
  | x :: xs, y :: ys, h => by
    have ih := countP_zip_range f xs ys (by simpa using h)
    simp only [List.zip_cons_cons, List.countP_cons, List.length_cons,
      List.range_succ_eq_map, List.countP_map, Function.comp_def,
      List.getD_cons_succ, List.getD_cons_zero]
    rw [ih]

theorem countP_trichotomy (l : List (ℚ × ℚ)) :
    l.countP (fun q => decide (q.2 < q.1)) + l.countP (fun q => decide (q.1 < q.2))
        + l.countP (fun q => decide (q.1 = q.2)) = l.length := by
  induction l with
  | nil => simp
  | cons a l ih =>
    simp only [List.countP_cons, decide_eq_true_eq, List.length_cons]
    rcases lt_trichotomy a.1 a.2 with h | h | h
    · rw [if_neg (asymm h), if_pos h, if_neg (ne_of_lt h)]
      omega
    · rw [if_neg (by rw [h]; exact lt_irrefl _), if_neg (by rw [h]; exact lt_irrefl _),
        if_pos h]
      omega
    · rw [if_pos h, if_neg (asymm h), if_neg (ne_of_gt h)]
      omega

theorem countGt_add_countGt_le (xs ys : List ℚ) :
    countGt xs ys + countGt ys xs ≤ xs.length := by
  rw [countGt_swap xs ys]
  have h := countP_trichotomy (xs.zip ys)
  have hlen : (xs.zip ys).length ≤ xs.length := by
    rw [List.length_zip]
    exact min_le_left _ _
  unfold countGt
  omega

theorem natCast_div_le_one {a b : ℕ} (h : a ≤ b) : (a : ℚ) / (b : ℚ) ≤ 1 := by
  rcases Nat.eq_zero_or_pos b with hb | hb
  · have ha : a = 0 := by omega
    subst ha
    subst hb
    norm_num
  · rw [div_le_one (by exact_mod_cast hb)]
    exact_mod_cast h

/-- Claim C1: for valid inputs the posterior parameters are
`alpha = 1 + successes` and `beta = 1 + failures` with
`successes = five_star_count + four_star_count` and
`failures = total_reviews - successes`, for each product independently. -/
theorem C1_posterior_parameters (P1 P2 : ProductInput)
    (sampler : ℕ → ℕ → ℕ → List ℚ)
    (h1 : P1.five + P1.four ≤ P1.total) (h2 : P2.five + P2.four ≤ P2.total) :
    (runComparison P1 P2 sampler).map
        (fun r => (r.alpha1, r.beta1, r.alpha2, r.beta2))
      = Except.ok
          (1 + (P1.five + P1.four), 1 + (P1.total - (P1.five + P1.four)),
           1 + (P2.five + P2.four), 1 + (P2.total - (P2.five + P2.four))) := by
  have hcond : ¬ (P1.total < successes P1 ∨ P2.total < successes P2) := by
    simp only [successes, not_or, not_lt]
    exact ⟨h1, h2⟩
  unfold runComparison
  rw [if_neg hcond]
  rfl

/-- Witness for C1 at the worked example of the spec (prices 209 and 179). -/
theorem C1_posterior_parameters_witness :
    (runComparison ⟨209, 1000, 182, 1407⟩ ⟨179, 95, 15, 125⟩
        (fun _ _ _ => [])).map (fun r => (r.alpha1, r.beta1, r.alpha2, r.beta2))
      = Except.ok (1183, 226, 111, 16) := by
  have h := C1_posterior_parameters ⟨209, 1000, 182, 1407⟩ ⟨179, 95, 15, 125⟩
    (fun _ _ _ => []) (by norm_num) (by norm_num)
  simpa using h

/-- Claim C5: whenever `five + four > total` for either product, the handler
stops with the review-count error, for every sampler — so no drawn samples
influence the outcome and no partial statistics are produced. -/
theorem C5_invalid_review_counts_fail_fast (P1 P2 : ProductInput)
    (h : P1.total < P1.five + P1.four ∨ P2.total < P2.five + P2.four) :
    ∀ sampler : ℕ → ℕ → ℕ → List ℚ,
      runComparison P1 P2 sampler = Except.error ValidationError.invalidReviewCounts := by
  intro sampler
  have hcond : P1.total < successes P1 ∨ P2.total < successes P2 := by
    simpa [successes] using h
  simp [runComparison, hcond]

/-- Witness for C5 at the spec's example five=10, four=5, total=10. -/
theorem C5_invalid_review_counts_fail_fast_witness :
    (10 : ℕ) < 10 + 5 ∧
    runComparison ⟨1, 10, 5, 10⟩ ⟨1, 0, 0, 1⟩ (fun _ _ n => List.replicate n (1 / 2))
      = Except.error ValidationError.invalidReviewCounts :=
  ⟨by norm_num,
    C5_invalid_review_counts_fail_fast ⟨1, 10, 5, 10⟩ ⟨1, 0, 0, 1⟩
      (Or.inl (by norm_num)) (fun _ _ n => List.replicate n (1 / 2))⟩

/-- Counterexample to claim C6 as stated: with `price1 = 0 ≤ 0` (and valid
review counts) the handler does not fail with `invalidPrice` — it runs the
computation and returns a result. -/
theorem C6_price_validation_counterexample :
    (⟨0, 0, 0, 1⟩ : ProductInput).price ≤ 0 ∧
    (runComparison ⟨0, 0, 0, 1⟩ ⟨1, 0, 0, 1⟩
        (fun _ _ n => List.replicate n (1 / 2))).isOk = true := by
  constructor
  · norm_num
  · have hcond : ¬ ((⟨0, 0, 0, 1⟩ : ProductInput).total < successes ⟨0, 0, 0, 1⟩ ∨
        (⟨1, 0, 0, 1⟩ : ProductInput).total < successes ⟨1, 0, 0, 1⟩) := by
      simp [successes]
    unfold runComparison
    rw [if_neg hcond]
    rfl

/-- Claim C6 amended: the handler itself performs no price or sample-count
validation and can never report `invalidPrice` or `invalidSampleCount`;
instead, a non-positive price cannot reach the computation because the price
widget enforces `min_value = 0.01`, and the sample count is the fixed
constant `N = 100_000 > 0`. -/
theorem C6_no_price_or_sample_count_errors :
    (∀ x : ℚ, 0 < numberInputValue (1 / 100) x) ∧ 0 < N ∧
    ∀ (P1 P2 : ProductInput) (sampler : ℕ → ℕ → ℕ → List ℚ),
      runComparison P1 P2 sampler ≠ Except.error ValidationError.invalidPrice ∧
      runComparison P1 P2 sampler ≠ Except.error ValidationError.invalidSampleCount := by
  refine ⟨fun x => lt_of_lt_of_le (by norm_num) (le_max_left _ _), by norm_num [N], ?_⟩
  intro P1 P2 sampler
  constructor <;> · unfold runComparison; split <;> simp

/-- Claim C2: for equal-length sample arrays the per-sample values are
`p_i / price`, `prob_first_better` is exactly the fraction of indices where
`value1_i > value2_i`, `prob_second_better` the fraction where
`value2_i > value1_i`, and `prob_tie = 1 - prob_first_better - prob_second_better`. -/
theorem C2_values_and_win_fractions (P1 P2 : ProductInput) (p1 p2 : List ℚ)
    (hlen : p1.length = p2.length) :
    (∀ i, i < p1.length →
        (values p1 P1.price).getD i 0 = p1.getD i 0 / P1.price ∧
        (values p2 P2.price).getD i 0 = p2.getD i 0 / P2.price) ∧
    (computeStats P1 P2 p1 p2).probFirstBetter
      = fracOfIndices p1.length
          (fun i => decide (p2.getD i 0 / P2.price < p1.getD i 0 / P1.price)) ∧
    (computeStats P1 P2 p1 p2).probSecondBetter
      = fracOfIndices p1.length
          (fun i => decide (p1.getD i 0 / P1.price < p2.getD i 0 / P2.price)) ∧
    (computeStats P1 P2 p1 p2).probTie
      = 1 - (computeStats P1 P2 p1 p2).probFirstBetter
          - (computeStats P1 P2 p1 p2).probSecondBetter := by
  refine ⟨fun i _ => ⟨values_getD p1 P1.price i, values_getD p2 P2.price i⟩, ?_, ?_,
    computeStats_probTie P1 P2 p1 p2⟩
  · rw [computeStats_probFirstBetter, countGt_values,
      countP_zip_range _ p1 p2 hlen, fracOfIndices]
  · rw [computeStats_probSecondBetter, countGt_values,
      countP_zip_range _ p2 p1 hlen.symm, fracOfIndices, hlen]

/-- Witness for C2 on a pair of two-element sample arrays. -/
theorem C2_values_and_win_fractions_witness :
    ([1, (1 : ℚ) / 2].length = [(1 : ℚ) / 4, 3 / 4].length) ∧
    ((∀ i, i < [1, (1 : ℚ) / 2].length →
        (values [1, (1 : ℚ) / 2] (⟨1, 0, 0, 1⟩ : ProductInput).price).getD i 0
          = [1, (1 : ℚ) / 2].getD i 0 / (⟨1, 0, 0, 1⟩ : ProductInput).price ∧
        (values [(1 : ℚ) / 4, 3 / 4] (⟨2, 0, 0, 1⟩ : ProductInput).price).getD i 0
          = [(1 : ℚ) / 4, 3 / 4].getD i 0 / (⟨2, 0, 0, 1⟩ : ProductInput).price) ∧
    (computeStats ⟨1, 0, 0, 1⟩ ⟨2, 0, 0, 1⟩ [1, 1 / 2] [1 / 4, 3 / 4]).probFirstBetter
      = fracOfIndices [1, (1 : ℚ) / 2].length
          (fun i => decide ([(1 : ℚ) / 4, 3 / 4].getD i 0 / (⟨2, 0, 0, 1⟩ : ProductInput).price
            < [1, (1 : ℚ) / 2].getD i 0 / (⟨1, 0, 0, 1⟩ : ProductInput).price)) ∧
    (computeStats ⟨1, 0, 0, 1⟩ ⟨2, 0, 0, 1⟩ [1, 1 / 2] [1 / 4, 3 / 4]).probSecondBetter
      = fracOfIndices [1, (1 : ℚ) / 2].length
          (fun i => decide ([1, (1 : ℚ) / 2].getD i 0 / (⟨1, 0, 0, 1⟩ : ProductInput).price
            < [(1 : ℚ) / 4, 3 / 4].getD i 0 / (⟨2, 0, 0, 1⟩ : ProductInput).price)) ∧
    (computeStats ⟨1, 0, 0, 1⟩ ⟨2, 0, 0, 1⟩ [1, 1 / 2] [1 / 4, 3 / 4]).probTie
      = 1 - (computeStats ⟨1, 0, 0, 1⟩ ⟨2, 0, 0, 1⟩ [1, 1 / 2] [1 / 4, 3 / 4]).probFirstBetter
          - (computeStats ⟨1, 0, 0, 1⟩ ⟨2, 0, 0, 1⟩ [1, 1 / 2] [1 / 4, 3 / 4]).probSecondBetter) :=
  ⟨rfl, C2_values_and_win_fractions ⟨1, 0, 0, 1⟩ ⟨2, 0, 0, 1⟩ [1, 1 / 2] [1 / 4, 3 / 4] rfl⟩

/-- Claim C3: the three reported probabilities sum to 1 — in the rational
embedding exactly, hence in particular within the 1e-9 tolerance. -/
theorem C3_probabilities_sum_to_one (P1 P2 : ProductInput) (p1 p2 : List ℚ) :
    (computeStats P1 P2 p1 p2).probFirstBetter + (computeStats P1 P2 p1 p2).probSecondBetter
        + (computeStats P1 P2 p1 p2).probTie = 1 ∧
    |(computeStats P1 P2 p1 p2).probFirstBetter + (computeStats P1 P2 p1 p2).probSecondBetter
        + (computeStats P1 P2 p1 p2).probTie - 1| ≤ 1 / 1000000000 := by
  have h : (computeStats P1 P2 p1 p2).probFirstBetter
      + (computeStats P1 P2 p1 p2).probSecondBetter + (computeStats P1 P2 p1 p2).probTie = 1 := by
    rw [computeStats_probTie]
    ring
  refine ⟨h, ?_⟩
  rw [h]
  norm_num

/-- Claim C4: each of the three reported probabilities lies in `[0, 1]`; in
particular the tie probability, computed as one minus the other two, is
non-negative. -/
theorem C4_probabilities_in_unit_interval (P1 P2 : ProductInput) (p1 p2 : List ℚ) :
    (0 ≤ (computeStats P1 P2 p1 p2).probFirstBetter
        ∧ (computeStats P1 P2 p1 p2).probFirstBetter ≤ 1) ∧
    (0 ≤ (computeStats P1 P2 p1 p2).probSecondBetter
        ∧ (computeStats P1 P2 p1 p2).probSecondBetter ≤ 1) ∧
    (0 ≤ (computeStats P1 P2 p1 p2).probTie
        ∧ (computeStats P1 P2 p1 p2).probTie ≤ 1) := by
  have hc := countGt_add_countGt_le (values p1 P1.price) (values p2 P2.price)
  rw [values_length] at hc
  rw [computeStats_probTie, computeStats_probFirstBetter, computeStats_probSecondBetter]
  have h10 : (0 : ℚ) ≤ (countGt (values p1 P1.price) (values p2 P2.price) : ℚ)
      / (p1.length : ℚ) := by positivity
  have h20 : (0 : ℚ) ≤ (countGt (values p2 P2.price) (values p1 P1.price) : ℚ)
      / (p1.length : ℚ) := by positivity
  have h11 : (countGt (values p1 P1.price) (values p2 P2.price) : ℚ)
      / (p1.length : ℚ) ≤ 1 := natCast_div_le_one (by omega)
  have h21 : (countGt (values p2 P2.price) (values p1 P1.price) : ℚ)
      / (p1.length : ℚ) ≤ 1 := natCast_div_le_one (by omega)
  have hsum : (countGt (values p1 P1.price) (values p2 P2.price) : ℚ) / (p1.length : ℚ)
      + (countGt (values p2 P2.price) (values p1 P1.price) : ℚ) / (p1.length : ℚ) ≤ 1 := by
    rw [div_add_div_same]
    have h := natCast_div_le_one hc
    push_cast at h
    exact h
  exact ⟨⟨h10, h11⟩, ⟨h20, h21⟩, by linarith, by linarith⟩

/-- Claim C7: the summary statistics are the sample means of the quality and
value arrays and the [2.5th, 97.5th] percentile interval of each value array
(with numpy's default linear-interpolation percentile). -/
theorem C7_summary_statistics (P1 P2 : ProductInput) (p1 p2 : List ℚ) :
    (computeStats P1 P2 p1 p2).meanQuality1 = p1.sum / (p1.length : ℚ) ∧
    (computeStats P1 P2 p1 p2).meanQuality2 = p2.sum / (p2.length : ℚ) ∧
    (computeStats P1 P2 p1 p2).meanValue1
      = (p1.map (fun x => x / P1.price)).sum / (p1.length : ℚ) ∧
    (computeStats P1 P2 p1 p2).meanValue2
      = (p2.map (fun x => x / P2.price)).sum / (p2.length : ℚ) ∧
    (computeStats P1 P2 p1 p2).valueLow1
      = npPercentile (p1.map (fun x => x / P1.price)) (5 / 2) ∧
    (computeStats P1 P2 p1 p2).valueHigh1
      = npPercentile (p1.map (fun x => x / P1.price)) (195 / 2) ∧
    (computeStats P1 P2 p1 p2).valueLow2
      = npPercentile (p2.map (fun x => x / P2.price)) (5 / 2) ∧
    (computeStats P1 P2 p1 p2).valueHigh2
      = npPercentile (p2.map (fun x => x / P2.price)) (195 / 2) := by
  refine ⟨rfl, rfl, ?_, ?_, rfl, rfl, rfl, rfl⟩
  · show npMean (values p1 P1.price) = _
    unfold npMean
    rw [values_length]
    rfl
  · show npMean (values p2 P2.price) = _
    unfold npMean
    rw [values_length]
    rfl

/-- Counterexample to claim C8 as stated: decreasing the first price does not
always STRICTLY increase `prob_a_better`. With samples `p1 = p2 = [1]`,
`price2 = 2` and `price1` lowered from 1 to 1/2, the probability is 1 before
and after the decrease. -/
theorem C8_strict_monotonicity_counterexample :
    ((1 : ℚ) / 2 < 1) ∧
    ¬ ((computeStats ⟨1, 0, 0, 1⟩ ⟨2, 0, 0, 1⟩ [1] [1]).probFirstBetter
        < (computeStats ⟨1 / 2, 0, 0, 1⟩ ⟨2, 0, 0, 1⟩ [1] [1]).probFirstBetter) := by
  constructor
  · norm_num
  · rw [computeStats_probFirstBetter, computeStats_probFirstBetter]
    norm_num [countGt, values, List.countP, List.countP.go]

/-- Claim C8 amended: holding both products' review data, `price2` and the
drawn samples fixed, decreasing `price1` (both prices positive, samples
non-negative as Beta draws are) weakly increases `prob_a_better`; it need
not do so strictly. -/
theorem C8_price_monotonicity (P1 P2 : ProductInput) (p1 p2 : List ℚ) (pr : ℚ)
    (hpr : 0 < pr) (hlt : pr < P1.price) (hpos : ∀ x ∈ p1, 0 ≤ x) :
    (computeStats P1 P2 p1 p2).probFirstBetter
      ≤ (computeStats (⟨pr, P1.five, P1.four, P1.total⟩ : ProductInput) P2 p1 p2).probFirstBetter := by
  rw [computeStats_probFirstBetter, computeStats_probFirstBetter]
  have hcount : countGt (values p1 P1.price) (values p2 P2.price)
      ≤ countGt (values p1 pr) (values p2 P2.price) := by
    rw [countGt_values, countGt_values]
    apply List.countP_mono_left
    intro q hq hq2
    have hq1 : 0 ≤ q.1 := hpos _ (List.of_mem_zip hq).1
    have hdiv : q.1 / P1.price ≤ q.1 / pr :=
      div_le_div_of_nonneg_left hq1 hpr (le_of_lt hlt)
    simp only [decide_eq_true_eq] at hq2 ⊢
    exact lt_of_lt_of_le hq2 hdiv
  exact div_le_div_of_nonneg_right (by exact_mod_cast hcount) (Nat.cast_nonneg _)

/-- Witness for C8's amended monotonicity at `price1 = 1` lowered to `1/2`. -/
theorem C8_price_monotonicity_witness :
    (0 : ℚ) < 1 / 2 ∧ (1 : ℚ) / 2 < 1 ∧
    (computeStats ⟨1, 0, 0, 1⟩ ⟨2, 0, 0, 1⟩ [1] [1]).probFirstBetter
      ≤ (computeStats ⟨1 / 2, 0, 0, 1⟩ ⟨2, 0, 0, 1⟩ [1] [1]).probFirstBetter :=
  ⟨by norm_num, by norm_num,
    C8_price_monotonicity ⟨1, 0, 0, 1⟩ ⟨2, 0, 0, 1⟩ [1] [1] (1 / 2) (by norm_num) (by norm_num)
      (by
        intro x hx
        rw [List.mem_singleton] at hx
        rw [hx]
        norm_num)⟩

theorem computeStats_swap_probSecondBetter (P1 P2 : ProductInput) (p1 p2 : List ℚ)
    (hlen : p1.length = p2.length) :
    (computeStats P2 P1 p2 p1).probSecondBetter
      = (computeStats P1 P2 p1 p2).probFirstBetter := by
  rw [computeStats_probSecondBetter, computeStats_probFirstBetter, hlen]

/-- Claim C9: with the randomness fixed — each product's posterior samples
are whatever the deterministic `sampler` yields for its parameters, as under
a fixed seed — swapping the two products swaps the two win probabilities,
and exactly, hence within any Monte Carlo tolerance. -/
theorem C9_swap_symmetry (P1 P2 : ProductInput) (sampler : ℕ → ℕ → ℕ → List ℚ)
    (hs : ∀ a b n, (sampler a b n).length = n) :
    (runComparison P1 P2 sampler).map (fun r => r.probFirstBetter)
      = (runComparison P2 P1 sampler).map (fun r => r.probSecondBetter) := by
  unfold runComparison
  by_cases h : P1.total < successes P1 ∨ P2.total < successes P2
  · rw [if_pos h, if_pos (Or.symm h)]
    rfl
  · rw [if_neg h, if_neg (fun hc => h (Or.symm hc))]
    have hlen : (sampler (1 + successes P1) (1 + failures P1) N).length
        = (sampler (1 + successes P2) (1 + failures P2) N).length := by
      rw [hs, hs]
    exact congrArg Except.ok (computeStats_swap_probSecondBetter P1 P2
      (sampler (1 + successes P1) (1 + failures P1) N)
      (sampler (1 + successes P2) (1 + failures P2) N) hlen).symm

/-- Witness for C9 at the spec's worked example with a constant sampler. -/
theorem C9_swap_symmetry_witness :
    (runComparison ⟨209, 1000, 182, 1407⟩ ⟨179, 95, 15, 125⟩
        (fun _ _ n => List.replicate n (1 / 2))).map (fun r => r.probFirstBetter)
      = (runComparison ⟨179, 95, 15, 125⟩ ⟨209, 1000, 182, 1407⟩
        (fun _ _ n => List.replicate n (1 / 2))).map (fun r => r.probSecondBetter) :=
  C9_swap_symmetry ⟨209, 1000, 182, 1407⟩ ⟨179, 95, 15, 125⟩
    (fun _ _ n => List.replicate n (1 / 2)) (fun _ _ n => List.length_replicate n _)

/-- Claim C10: for equal-length, non-empty sample arrays, `prob_tie` — though
computed as `1 - prob1_better - prob2_better` — equals exactly the fraction
of indices where the two values are equal, because `>`, `<` and `=` partition
the index set; hence it is a multiple of `1 / sample_count`. -/
theorem C10_tie_is_equality_fraction (P1 P2 : ProductInput) (p1 p2 : List ℚ)
    (hlen : p1.length = p2.length) (hpos : 0 < p1.length) :
    (computeStats P1 P2 p1 p2).probTie
      = fracOfIndices p1.length
          (fun i => decide (p1.getD i 0 / P1.price = p2.getD i 0 / P2.price)) ∧
    ∃ k : ℕ, k ≤ p1.length ∧
      (computeStats P1 P2 p1 p2).probTie = (k : ℚ) / (p1.length : ℚ) := by
  have hL : ((values p1 P1.price).zip (values p2 P2.price)).length = p1.length := by
    rw [List.length_zip, values_length, values_length, ← hlen, min_self]
  have htri := countP_trichotomy ((values p1 P1.price).zip (values p2 P2.price))
  rw [hL] at htri
  have hgt : countGt (values p1 P1.price) (values p2 P2.price)
      = ((values p1 P1.price).zip (values p2 P2.price)).countP
          (fun q => decide (q.2 < q.1)) := rfl
  have hswap := countGt_swap (values p1 P1.price) (values p2 P2.price)
  have hkey : (computeStats P1 P2 p1 p2).probTie
      = (((values p1 P1.price).zip (values p2 P2.price)).countP
          (fun q => decide (q.1 = q.2)) : ℚ) / (p1.length : ℚ) := by
    rw [computeStats_probTie, computeStats_probFirstBetter, computeStats_probSecondBetter,
      hgt, hswap]
    have hnQ : ((p1.length : ℚ)) ≠ 0 := by
      exact_mod_cast Nat.pos_iff_ne_zero.mp hpos
    have hcast : (((values p1 P1.price).zip (values p2 P2.price)).countP
            (fun q => decide (q.2 < q.1)) : ℚ)
        + (((values p1 P1.price).zip (values p2 P2.price)).countP
            (fun q => decide (q.1 < q.2)) : ℚ)
        + (((values p1 P1.price).zip (values p2 P2.price)).countP
            (fun q => decide (q.1 = q.2)) : ℚ) = (p1.length : ℚ) := by
      exact_mod_cast htri
    field_simp
    linarith
  refine ⟨?_, ?_⟩
  · rw [hkey, fracOfIndices]
    congr 1
    rw [countP_zip_values, countP_zip_range _ p1 p2 hlen]
  · refine ⟨((values p1 P1.price).zip (values p2 P2.price)).countP
      (fun q => decide (q.1 = q.2)), ?_, hkey⟩
    have hle := @List.countP_le_length (ℚ × ℚ) (fun q => decide (q.1 = q.2))
      ((values p1 P1.price).zip (values p2 P2.price))
    rw [hL] at hle
    exact hle

/-- Witness for C10 on a pair of two-element sample arrays with one tie. -/
theorem C10_tie_is_equality_fraction_witness :
    ([1, (1 : ℚ) / 2].length = [(1 : ℚ) / 2, 3 / 4].length) ∧ 0 < [1, (1 : ℚ) / 2].length ∧
    ((computeStats ⟨1, 0, 0, 1⟩ ⟨1, 0, 0, 1⟩ [1, 1 / 2] [1 / 2, 3 / 4]).probTie
      = fracOfIndices [1, (1 : ℚ) / 2].length
          (fun i => decide ([1, (1 : ℚ) / 2].getD i 0 / (⟨1, 0, 0, 1⟩ : ProductInput).price
            = [(1 : ℚ) / 2, 3 / 4].getD i 0 / (⟨1, 0, 0, 1⟩ : ProductInput).price)) ∧
    ∃ k : ℕ, k ≤ [1, (1 : ℚ) / 2].length ∧
      (computeStats ⟨1, 0, 0, 1⟩ ⟨1, 0, 0, 1⟩ [1, 1 / 2] [1 / 2, 3 / 4]).probTie
        = (k : ℚ) / ([1, (1 : ℚ) / 2].length : ℚ)) :=
  ⟨rfl, by norm_num,
    C10_tie_is_equality_fraction ⟨1, 0, 0, 1⟩ ⟨1, 0, 0, 1⟩ [1, 1 / 2] [1 / 2, 3 / 4]
      rfl (by norm_num)⟩

end OnlyBest
